import Mathlib

/-!
# Verification of the RustyClippy streaming completion layer

Shallow embedding of the core of `src-tauri/src` (SSE decoding in
`llm/openai.rs`, the local generation loop in `llm/local.rs`, and the
`send_message` orchestrator in `commands.rs`), with theorems settling the
spec claims about it.

External crates (serde_json, llama-cpp-2, tokio, reqwest, the filesystem)
are modelled as parameters: the repository's control flow around them is
translated faithfully, while their behaviour is abstracted into function
arguments.  Machine floats (`f32` temperature) are modelled by exact
rationals; byte chunks are assumed valid UTF-8, so `String::from_utf8_lossy`
is the identity on the characters.
-/

namespace RustyClippy

/-! ## String helpers -/

/-- `pat` occurs as a contiguous sublist of the list. -/
def containsAux (pat : List Char) : List Char → Bool
  | [] => pat.isPrefixOf []
  | c :: rest => pat.isPrefixOf (c :: rest) || containsAux pat rest

/-- Rust's `str::contains(pat)`: substring test. -/
def containsSub (s pat : String) : Bool :=
  containsAux pat.data s.data

/-- Concatenation of a list of strings; models Rust's `Vec<String>::join("")`
and the repeated `push_str` accumulation patterns in the source. -/
def joinParts : List String → String
  | [] => ""
  | s :: rest => s ++ joinParts rest

/-- Model of Rust's `str::lines()`: split at `\n`, treating a `\r`
immediately before the `\n` as part of the line terminator; a final line
without terminator is yielded as-is (including a trailing lone `\r`), and a
trailing terminator produces no final empty line.
`acc` holds the characters of the current line in reverse. -/
def rustLinesAux : List Char → List Char → List String
  | [], [] => []
  | [], acc => [String.mk acc.reverse]
  | c :: rest, acc =>
    if c = '\n' then
      String.mk (if acc.head? = some '\r' then acc.tail else acc).reverse ::
        rustLinesAux rest []
    else
      rustLinesAux rest (c :: acc)

def rustLines (s : String) : List String :=
  rustLinesAux s.data []

/-! ## SSE frame decoder (`src-tauri/src/llm/openai.rs`, `stream_completion`)

The decoder maps each network chunk independently: it iterates over the
chunk's lines, collects the `content` of every well-formed `data: ` line
(stopping at `data: [DONE]` within the chunk), joins the collected parts,
and emits them as a single fragment if non-empty.  `serde_json::from_str::
<ChatCompletionChunk>` is abstracted as a `parse` parameter. -/

structure Delta where
  content : Option String
deriving DecidableEq

structure Choice where
  delta : Delta
deriving DecidableEq

structure ChatCompletionChunk where
  choices : List Choice
deriving DecidableEq

/-- The type of the abstracted `serde_json::from_str::<ChatCompletionChunk>`:
`none` models a parse failure. -/
abbrev SSEParse := String → Option ChatCompletionChunk

/-- `line.starts_with("data: ")`. -/
def isDataLine (line : String) : Bool :=
  "data: ".data.isPrefixOf line.data

/-- `&line[6..]`: the payload after the `data: ` prefix. -/
def dataRest (line : String) : String :=
  String.mk (line.data.drop 6)

/-- A line that triggers the `[DONE]` break in the source. -/
def isDoneLine (line : String) : Bool :=
  isDataLine line && dataRest line == "[DONE]"

/-- The `for line in text.lines()` loop body of `stream_completion`:
collect `content_parts`, breaking out of the (per-chunk) loop at
`data: [DONE]`, silently skipping lines that are not `data: ` lines, fail
to parse, have no first choice, or carry no `content`. -/
def collectParts (parse : SSEParse) : List String → List String
  | [] => []
  | line :: rest =>
    if isDataLine line then
      if dataRest line = "[DONE]" then []
      else
        match parse (dataRest line) with
        | some chunk =>
          match chunk.choices.head? with
          | some choice =>
            match choice.delta.content with
            | some content => content :: collectParts parse rest
            | none => collectParts parse rest
          | none => collectParts parse rest
        | none => collectParts parse rest
    else collectParts parse rest

/-- Per-chunk result, after the content/no-content decision:
`content_parts.join("")` if non-empty, else no fragment for this chunk. -/
def chunkFragment (parse : SSEParse) (lines : List String) : Option String :=
  let parts := collectParts parse lines
  if parts.isEmpty then none else some (joinParts parts)

/-- The whole per-chunk transform on the chunk's text. -/
def decodeChunk (parse : SSEParse) (text : String) : Option String :=
  chunkFragment parse (rustLines text)

/-- One step of the `map` + `filter_map` stream adapters: a transport error
chunk passes through as an `Err` item, a text chunk becomes its fragment or
nothing. -/
def decodeItem (parse : SSEParse) : Except String String → Option (Except String String)
  | .error e => some (.error e)
  | .ok text => (decodeChunk parse text).map .ok

/-- The decoded item sequence produced from a finite chunk sequence. -/
def decodeStream (parse : SSEParse) (chunks : List (Except String String)) :
    List (Except String String) :=
  chunks.filterMap (decodeItem parse)

/-- Concatenated fragment text of a stream of chunks given as line lists
(chunking at line boundaries). -/
def streamText (parse : SSEParse) (chunks : List (List String)) : String :=
  joinParts (chunks.filterMap (chunkFragment parse))

/-- The contribution of a single non-`[DONE]` line to `content_parts`. -/
def linePart (parse : SSEParse) (line : String) : List String :=
  if isDataLine line then
    match parse (dataRest line) with
    | some chunk =>
      match chunk.choices.head? with
      | some choice =>
        match choice.delta.content with
        | some content => [content]
        | none => []
      | none => []
    | none => []
  else []

/-! Concrete fixtures used by counterexamples and witnesses. -/

def hiJson : String := "\x7b\"choices\":[\x7b\"delta\":\x7b\"content\":\"Hi\"\x7d\x7d]\x7d"

def thereJson : String := "\x7b\"choices\":[\x7b\"delta\":\x7b\"content\":\" there\"\x7d\x7d]\x7d"

/-- Model of `serde_json::from_str::<ChatCompletionChunk>` restricted to the
concrete payloads used in the counterexamples and witnesses below: it
succeeds exactly on the two well-formed fixture objects (with the field
values serde_json would extract) and fails on everything else — in
particular on the truncated prefix `{"cho` of a split line, which is not
valid JSON. -/
def parseFixture : SSEParse := fun s =>
  if s = hiJson then some ⟨[⟨⟨some "Hi"⟩⟩]⟩
  else if s = thereJson then some ⟨[⟨⟨some " there"⟩⟩]⟩
  else none

/-- A complete SSE event carrying the fragment `"Hi"`. -/
def wholeChunk : String := "data: " ++ hiJson ++ "\n\n"

/-- The same event split mid-line after `data: {"cho`. -/
def splitChunk1 : String := "data: \x7b\"cho"

def splitChunk2 : String := "ices\":[\x7b\"delta\":\x7b\"content\":\"Hi\"\x7d\x7d]\x7d\n\n"

/-! ## Local generation engine (`src-tauri/src/llm/local.rs`)

`Message` is the `llm::Message` record; `format_chat_prompt` is the pure
prompt renderer; the autoregressive loop of `run_inference` (lines
144–184) is modelled by `genLoop`, with the llama-cpp-2 backend abstracted
into a `LocalBackend` record of behaviour functions.  Since one call's
context state is advanced deterministically by the loop itself, every
backend observation in the loop is a function of the loop iteration index
(for `sample` and the batch-add/decode step) or of the sampled token (for
`is_eog_token` / `token_to_str`); `sendOk` gives the outcome of the `k`-th
`blocking_send` (false = receiver dropped). -/

structure Message where
  role : String
  content : String

/-- One arm of the `match msg.role.as_str()` in `format_chat_prompt`. -/
def renderMessage (m : Message) : String :=
  if m.role = "system" then
    "<start_of_turn>user\nSystem instruction: " ++ m.content ++ "<end_of_turn>\n"
  else if m.role = "user" then
    "<start_of_turn>user\n" ++ m.content ++ "<end_of_turn>\n"
  else if m.role = "assistant" then
    "<start_of_turn>model\n" ++ m.content ++ "<end_of_turn>\n"
  else ""

/-- `format_chat_prompt`: fold the per-message renderings and append the
open assistant-turn marker. -/
def format_chat_prompt (messages : List Message) : String :=
  joinParts (messages.map renderMessage) ++ "<start_of_turn>model\n"

/-- `token_str.contains("<end_of_turn>") || token_str.contains("<eos>")`. -/
def isStopText (s : String) : Bool :=
  containsSub s "<end_of_turn>" || containsSub s "<eos>"

/-- Abstracted behaviour of the native backend during one call's loop.
Tokens are `Int` (llama tokens are `i32`). -/
structure LocalBackend where
  /-- Token produced by `sampler.sample` at the i-th loop iteration. -/
  sample : Nat → Int
  /-- `model.is_eog_token`. -/
  isEog : Int → Bool
  /-- `model.token_to_str`; `none` models a conversion error, which the
  source maps to `""` via `unwrap_or_default()`. -/
  tokenToStr : Int → Option String
  /-- Whether the k-th `tx.blocking_send` succeeds (receiver still alive). -/
  sendOk : Nat → Bool
  /-- Whether `batch.add` + `ctx.decode` succeed at loop iteration i. -/
  stepOk : Nat → Bool

/-- How the loop ended. -/
inductive ExitReason where
  | maxTokens
  | eog
  | stopTag
  | cancelled
  | stepError
deriving DecidableEq

/-- Observable outcome of the loop: fragments sent over the channel (with
the token they came from), tokens whose text was accepted into the
generated output (in order), the number of iterations entered (= tokens
sampled), and the exit reason. -/
structure RunResult where
  emitted : List (Int × String)
  consumed : List (Int × String)
  steps : Nat
  exit : ExitReason

/-- The `for _ in 0..max_tokens` loop of `run_inference`: sample, accept,
stop on a backend end-of-generation token, decode to text
(`unwrap_or_default`), stop on a textual stop tag, send non-empty text
(breaking if the receiver is gone), then advance the context by one
batch-add + decode (failures there are terminal errors). -/
def genLoop (b : LocalBackend) : Nat → Nat → Nat → RunResult
  | 0, _, _ => ⟨[], [], 0, .maxTokens⟩
  | fuel + 1, i, k =>
    let t := b.sample i
    if b.isEog t then ⟨[], [], 1, .eog⟩
    else
      let s := (b.tokenToStr t).getD ""
      if isStopText s then ⟨[], [], 1, .stopTag⟩
      else if s.isEmpty then
        if b.stepOk i then
          let r := genLoop b fuel (i + 1) k
          ⟨r.emitted, (t, s) :: r.consumed, r.steps + 1, r.exit⟩
        else ⟨[], [(t, s)], 1, .stepError⟩
      else if b.sendOk k then
        if b.stepOk i then
          let r := genLoop b fuel (i + 1) (k + 1)
          ⟨(t, s) :: r.emitted, (t, s) :: r.consumed, r.steps + 1, r.exit⟩
        else ⟨[(t, s)], [(t, s)], 1, .stepError⟩
      else ⟨[], [], 1, .cancelled⟩

/-- `let max_tokens = 512;` -/
def max_tokens : Nat := 512

/-- The whole generation loop of one call. -/
def run_inference (b : LocalBackend) : RunResult :=
  genLoop b max_tokens 0 0

/-! Sampler selection (`run_inference`, lines 134–142). -/

/-- The sampler value chosen before the loop: `LlamaSampler::greedy()` or
`chain_simple([temp(temperature), dist(0)])`. -/
inductive SamplerKind where
  | greedy
  | tempDist (temperature : ℚ) (seed : Nat)
deriving DecidableEq

/-- The `0.01` threshold (exact rational model of the `f32` literal's role). -/
def samplerEpsilon : ℚ := 1 / 100

/-- `if temperature < 0.01 { greedy } else { temp + dist(0) }`, evaluated
once per call, before the token loop. -/
def selectSampler (temperature : ℚ) : SamplerKind :=
  if temperature < samplerEpsilon then .greedy else .tempDist temperature 0

/-- Sampling through the chosen sampler: the greedy sampler is a
deterministic function of the model state (`det`), the temperature sampler
additionally consumes randomness (`rnd`). -/
def sampleWith (smp : SamplerKind) (det rnd : Nat → Int) (i : Nat) : Int :=
  match smp with
  | .greedy => det i
  | .tempDist _ _ => rnd i

/-- The backend for one call, with the sampler fixed up front from the
temperature, as in the source. -/
def mkBackend (temperature : ℚ) (det rnd : Nat → Int) (isEog : Int → Bool)
    (tokenToStr : Int → Option String) (sendOk stepOk : Nat → Bool) : LocalBackend :=
  { sample := sampleWith (selectSampler temperature) det rnd
    isEog := isEog
    tokenToStr := tokenToStr
    sendOk := sendOk
    stepOk := stepOk }

/-- One full local generation call at a given temperature. -/
def runCall (temperature : ℚ) (det rnd : Nat → Int) (isEog : Int → Bool)
    (tokenToStr : Int → Option String) (sendOk stepOk : Nat → Bool) : RunResult :=
  run_inference (mkBackend temperature det rnd isEog tokenToStr sendOk stepOk)

/-- `LocalLLMProvider::new`: verify the file exists before anything else. -/
structure LocalLLMProvider where
  model_path : String

def LocalLLMProvider_new (fsExists : String → Bool) (model_path : String) :
    Except String LocalLLMProvider :=
  if fsExists model_path then .ok ⟨model_path⟩
  else .error ("Model file not found: " ++ model_path)

/-! ## Orchestrator (`src-tauri/src/commands.rs`)

`build_provider` and `send_message`, with the filesystem (`Path::exists`),
`Config::load`, `personality::get_system_prompt` and the provider's
`stream_completion` abstracted as parameters.  UI events are the
`app.emit` calls (`chat-token`, `chat-error`, `chat-done`). -/

inductive LlmProviderType where
  | OpenAI
  | LMStudio
  | Ollama
  | CustomAPI
  | BuiltIn
deriving DecidableEq

structure Config where
  llm_provider : LlmProviderType
  openai_api_key : Option String
  openai_model : String
  custom_api_url : Option String
  custom_api_key : Option String
  custom_model : Option String
  builtin_model_path : Option String
  temperature : ℚ
  tts_enabled : Bool
  tts_voice : Option String

structure ChatMessage where
  role : String
  content : String
deriving DecidableEq

/-- The value `build_provider` produces: which provider will serve the call
and with what parameters. -/
inductive Provider where
  | openai (api_key model base_url : String)
  | localProvider (p : LocalLLMProvider)

def build_provider (fsExists : String → Bool) (config : Config) :
    Except String Provider :=
  match config.llm_provider with
  | .OpenAI =>
    match config.openai_api_key with
    | none => .error "OpenAI API key not set. Please configure it in settings."
    | some key => .ok (.openai key config.openai_model "https://api.openai.com/v1")
  | .LMStudio =>
    .ok (.openai (config.custom_api_key.getD "lm-studio")
      (config.custom_model.getD "default")
      (config.custom_api_url.getD "http://localhost:1234/v1"))
  | .Ollama =>
    .ok (.openai "ollama" (config.custom_model.getD "llama3.2")
      (config.custom_api_url.getD "http://localhost:11434/v1"))
  | .CustomAPI =>
    match config.custom_api_url with
    | none => .error "Custom API URL is required."
    | some url =>
      .ok (.openai (config.custom_api_key.getD "") (config.custom_model.getD "default") url)
  | .BuiltIn =>
    match config.builtin_model_path with
    | none => .error "No local model path configured. Please download or select a model in settings."
    | some p =>
      match LocalLLMProvider_new fsExists p with
      | .ok prov => .ok (.localProvider prov)
      | .error e => .error ("Failed to load local model: " ++ e)

/-- Events emitted to the UI boundary. -/
inductive UIEvent where
  | token (s : String)
  | error (s : String)
  | done
deriving DecidableEq

def isTerminalEv : UIEvent → Bool
  | .token _ => false
  | .error _ => true
  | .done => true

/-- Outcome of one `send_message` command: the conversation history after
the call, the emitted UI events in order, and the command's return value. -/
structure SendOutcome where
  history : List ChatMessage
  events : List UIEvent
  result : Except String Unit

/-- The provider behaviour: `stream_completion` either fails up front
(non-success HTTP status, request error) or yields a finite item sequence
of fragments and terminal errors. -/
abbrev StreamFn := Provider → List Message → ℚ → Except String (List (Except String String))

/-- Request messages: the system prompt followed by the full history
(which at that point already ends with the new user message). -/
def mkRequestMessages (systemPrompt : String) (history : List ChatMessage) :
    List Message :=
  ⟨"system", systemPrompt⟩ :: history.map (fun m => ⟨m.role, m.content⟩)

/-- The `while let Some(result) = stream.next().await` loop of
`send_message`: forward each fragment as a `chat-token` event and
accumulate it; on an `Err` item emit `chat-error` and return the error
(no assistant message); at stream end push the assistant message and emit
`chat-done`. -/
def consumeStream (history1 : List ChatMessage) (acc : String) (evs : List UIEvent) :
    List (Except String String) → SendOutcome
  | [] => ⟨history1 ++ [⟨"assistant", acc⟩], evs ++ [.done], .ok ()⟩
  | .ok tok :: rest =>
    consumeStream history1 (acc ++ tok) (evs ++ [.token tok]) rest
  | .error e :: _ =>
    ⟨history1, evs ++ [.error ("Stream error: " ++ e)],
      .error ("Stream error: " ++ e)⟩

/-- The `send_message` command: load config, build the provider, push the
user message, build the request, start the stream, consume it. -/
def send_message (fsExists : String → Bool) (streamOf : StreamFn)
    (systemPrompt : String) (configLoad : Except String Config)
    (history : List ChatMessage) (message : String) : SendOutcome :=
  match configLoad with
  | .error e => ⟨history, [], .error ("Failed to load config: " ++ e)⟩
  | .ok config =>
    match build_provider fsExists config with
    | .error e => ⟨history, [], .error e⟩
    | .ok provider =>
      let history1 := history ++ [⟨"user", message⟩]
      match streamOf provider (mkRequestMessages systemPrompt history1)
          config.temperature with
      | .error e => ⟨history1, [], .error ("Failed to get completion: " ++ e)⟩
      | .ok items => consumeStream history1 "" [] items

/-! Shape helpers for stream consumption, used to state C6. -/

/-- The fragments before the first terminal error. -/
def okTokens : List (Except String String) → List String
  | [] => []
  | .ok t :: rest => t :: okTokens rest
  | .error _ :: _ => []

/-- Whether the item sequence has no terminal error. -/
def streamOk : List (Except String String) → Bool
  | [] => true
  | .ok _ :: rest => streamOk rest
  | .error _ :: _ => false

/-- The first terminal error's message (`""` if none). -/
def firstErr : List (Except String String) → String
  | [] => ""
  | .ok _ :: rest => firstErr rest
  | .error e :: _ => e

/-- The UI events generated by consuming an item sequence. -/
def streamEvents : List (Except String String) → List UIEvent
  | [] => [.done]
  | .ok t :: rest => .token t :: streamEvents rest
  | .error e :: _ => [.error ("Stream error: " ++ e)]

/-! Concrete fixtures for the orchestrator claims. -/

/-- A `BuiltIn` configuration whose model path names a nonexistent file
(under `fsNone` below). -/
def cfgMissingModel : Config :=
  ⟨.BuiltIn, none, "gpt-4", none, none, none, some "/missing/model.gguf",
    9 / 10, false, none⟩

/-- A filesystem on which no path exists. -/
def fsNone : String → Bool := fun _ => false

/-- A provider behaviour that streams nothing (never consulted in the
fixtures that use it). -/
def streamNone : StreamFn := fun _ _ _ => .ok []

/-- A backend whose token-to-text conversion always fails. -/
def backendNoText : LocalBackend :=
  ⟨fun _ => 7, fun _ => false, fun _ => none, fun _ => true, fun _ => true⟩

/-- An OpenAI configuration with an API key set. -/
def cfgOpenAI : Config :=
  ⟨.OpenAI, some "k", "gpt-4", none, none, none, none, 9 / 10, false, none⟩

/-- A provider behaviour that streams the fragments `Hi` and ` there`. -/
def streamHiThere : StreamFn := fun _ _ _ => .ok [.ok "Hi", .ok " there"]

/-! ## Theorems: string helpers -/

theorem string_empty_append (s : String) : "" ++ s = s := by
  apply String.ext
  simp [String.data_append]

theorem string_append_empty (s : String) : s ++ "" = s := by
  apply String.ext
  simp [String.data_append]

theorem string_append_assoc (a b c : String) : a ++ b ++ c = a ++ (b ++ c) := by
  apply String.ext
  simp [String.data_append]

theorem joinParts_append (a b : List String) :
    joinParts (a ++ b) = joinParts a ++ joinParts b := by
  induction a with
  | nil => simp [joinParts, string_empty_append]
  | cons s rest ih => simp [joinParts, ih, string_append_assoc]

/-! ## Theorems: SSE decoder structure -/

theorem collectParts_cons (parse : SSEParse) (a : String) (l : List String) :
    collectParts parse (a :: l) =
      if isDoneLine a then [] else linePart parse a ++ collectParts parse l := by
  by_cases h1 : isDataLine a
  · by_cases h2 : dataRest a = "[DONE]"
    · simp [collectParts, linePart, isDoneLine, h1, h2]
    · rcases hp : parse (dataRest a) with _ | chunk
      · simp [collectParts, linePart, isDoneLine, h1, h2, hp]
      · rcases hc : chunk.choices.head? with _ | choice
        · simp [collectParts, linePart, isDoneLine, h1, h2, hp, hc]
        · rcases hco : choice.delta.content with _ | content <;>
            simp [collectParts, linePart, isDoneLine, h1, h2, hp, hc, hco]
  · simp [collectParts, linePart, isDoneLine, h1]

theorem collectParts_append_of_noDone (parse : SSEParse) (L1 L2 : List String)
    (h : ∀ l ∈ L1, isDoneLine l = false) :
    collectParts parse (L1 ++ L2) = collectParts parse L1 ++ collectParts parse L2 := by
  induction L1 with
  | nil => simp [collectParts]
  | cons a rest ih =>
    have ha : isDoneLine a = false := h a (by simp)
    have h' : ∀ l ∈ rest, isDoneLine l = false := fun l hl => h l (by simp [hl])
    simp [collectParts_cons, ha, ih h', List.append_assoc]

theorem streamText_singleton (parse : SSEParse) (L : List String) :
    streamText parse [L] = joinParts (collectParts parse L) := by
  rcases hp : collectParts parse L with _ | ⟨s, rest⟩
  · simp [streamText, chunkFragment, hp, joinParts]
  · simp [streamText, chunkFragment, hp, joinParts, string_append_empty]

theorem streamText_cons (parse : SSEParse) (L : List String) (rest : List (List String)) :
    streamText parse (L :: rest) =
      joinParts (collectParts parse L) ++ streamText parse rest := by
  rcases hp : collectParts parse L with _ | ⟨s, l⟩
  · simp [streamText, chunkFragment, hp, joinParts, string_empty_append]
  · simp [streamText, chunkFragment, hp, joinParts, string_append_assoc]

/-! ## Claim C1 -/

/-- C1 counterexample: decoding is NOT invariant under arbitrary byte-chunk
fragmentation.  The single logical event `data: {"choices":[{"delta":
{"content":"Hi"}}]}\n\n` decodes to the fragment `"Hi"` when fed whole, but
decodes to nothing when split mid-line into `data: {"cho` and
`ices":...}\n\n`: the decoder holds no partial-frame buffer across chunks,
so the first half is a malformed `data: ` line (silently dropped) and the
second half does not start with `data: ` (ignored). -/
theorem sse_fragmentation_counterexample :
    splitChunk1 ++ splitChunk2 = wholeChunk ∧
    decodeStream parseFixture [Except.ok wholeChunk] = [Except.ok "Hi"] ∧
    decodeStream parseFixture [Except.ok splitChunk1, Except.ok splitChunk2] = [] :=
  ⟨rfl, rfl, rfl⟩

/-- C1 amended: fragmentation invariance holds only for splits at line
boundaries, and at the level of the concatenated output text (the fragment
boundaries themselves do change: lines sharing a chunk are joined into one
fragment).  For any chunking of a `[DONE]`-free line sequence, the
concatenation of all emitted fragments equals that of feeding all lines as
one chunk.  A `data: ` line split across two chunks is dropped entirely. -/
theorem sse_line_boundary_fragmentation_invariant (parse : SSEParse)
    (chunks : List (List String))
    (h : ∀ L ∈ chunks, ∀ l ∈ L, isDoneLine l = false) :
    streamText parse chunks = streamText parse [chunks.flatten] := by
  induction chunks with
  | nil => simp [streamText, chunkFragment, collectParts, joinParts]
  | cons L rest ih =>
    have hL : ∀ l ∈ L, isDoneLine l = false := h L (by simp)
    have h' : ∀ L' ∈ rest, ∀ l ∈ L', isDoneLine l = false :=
      fun L' hL' => h L' (by simp [hL'])
    rw [streamText_cons, ih h', streamText_singleton, streamText_singleton,
      List.flatten_cons, collectParts_append_of_noDone parse L rest.flatten hL,
      joinParts_append]

/-- Witness for `sse_line_boundary_fragmentation_invariant` at a concrete
two-chunk split of the two-event stream `Hi` / ` there`. -/
theorem sse_line_boundary_fragmentation_invariant_witness :
    (∀ L ∈ [["data: " ++ hiJson], ["data: " ++ thereJson]],
      ∀ l ∈ L, isDoneLine l = false) ∧
    streamText parseFixture [["data: " ++ hiJson], ["data: " ++ thereJson]] =
      streamText parseFixture [[["data: " ++ hiJson], ["data: " ++ thereJson]].flatten] :=
  ⟨by decide, sse_line_boundary_fragmentation_invariant parseFixture
    [["data: " ++ hiJson], ["data: " ++ thereJson]] (by decide)⟩

/-! ## Claim C2 -/

/-- C2 counterexample: a `data: [DONE]` line does NOT terminate the decoded
sequence.  The `break` it triggers only leaves the line loop of the current
chunk; a later chunk still produces a fragment. -/
theorem sse_done_counterexample :
    decodeStream parseFixture [Except.ok "data: [DONE]\n\n"] = [] ∧
    decodeStream parseFixture
      [Except.ok "data: [DONE]\n\n", Except.ok wholeChunk] = [Except.ok "Hi"] :=
  ⟨rfl, rfl⟩

/-- C2 amended: `data: [DONE]` suppresses only the remaining lines of the
same chunk (content collected earlier in that chunk is still emitted as
that chunk's fragment); chunks are decoded independently, so subsequent
chunks are processed normally and termination of the item sequence comes
only from the transport stream ending. -/
theorem sse_done_truncates_chunk_only (parse : SSEParse) (pre post : List String)
    (d : String) (hd : isDoneLine d = true) (c : Except String String)
    (chunks : List (Except String String)) :
    collectParts parse (pre ++ d :: post) = collectParts parse pre ∧
    chunkFragment parse (pre ++ d :: post) = chunkFragment parse pre ∧
    decodeStream parse (c :: chunks) =
      (decodeItem parse c).toList ++ decodeStream parse chunks := by
  have hcp : collectParts parse (pre ++ d :: post) = collectParts parse pre := by
    induction pre with
    | nil =>
      rw [List.nil_append, collectParts_cons, if_pos hd]
      rfl
    | cons a rest ih => simp [collectParts_cons, ih]
  refine ⟨hcp, by simp [chunkFragment, hcp], ?_⟩
  rcases hc : decodeItem parse c with _ | x <;>
    simp [decodeStream, List.filterMap_cons, hc]

/-- Witness for `sse_done_truncates_chunk_only` at a concrete `[DONE]`
line between two content lines. -/
theorem sse_done_truncates_chunk_only_witness :
    isDoneLine "data: [DONE]" = true ∧
    collectParts parseFixture
        (["data: " ++ hiJson] ++ "data: [DONE]" :: ["data: " ++ thereJson]) =
      collectParts parseFixture ["data: " ++ hiJson] ∧
    chunkFragment parseFixture
        (["data: " ++ hiJson] ++ "data: [DONE]" :: ["data: " ++ thereJson]) =
      chunkFragment parseFixture ["data: " ++ hiJson] ∧
    decodeStream parseFixture (Except.ok wholeChunk :: [Except.ok wholeChunk]) =
      (decodeItem parseFixture (Except.ok wholeChunk)).toList ++
        decodeStream parseFixture [Except.ok wholeChunk] :=
  ⟨by decide, sse_done_truncates_chunk_only parseFixture ["data: " ++ hiJson]
    ["data: " ++ thereJson] "data: [DONE]" (by decide) (Except.ok wholeChunk)
    [Except.ok wholeChunk]⟩

/-! ## Claim C4 -/

/-- C4: a `data: ` line whose payload fails to parse as JSON is silently
dropped: removing it from the chunk's line list leaves the collected parts
— and hence the chunk's fragment and the whole decoded sequence —
unchanged, so it neither terminates the stream, nor errors it, nor yields
a fragment, and later lines are still processed. -/
theorem sse_malformed_data_line_dropped (parse : SSEParse) (pre post : List String)
    (line : String) (h1 : isDataLine line = true) (h2 : dataRest line ≠ "[DONE]")
    (h3 : parse (dataRest line) = none) :
    collectParts parse (pre ++ line :: post) = collectParts parse (pre ++ post) ∧
    chunkFragment parse (pre ++ line :: post) = chunkFragment parse (pre ++ post) := by
  have hnd : isDoneLine line = false := by
    simp [isDoneLine, h1, h2]
  have hlp : linePart parse line = [] := by
    simp [linePart, h1, h3]
  have hcp : collectParts parse (pre ++ line :: post) = collectParts parse (pre ++ post) := by
    induction pre with
    | nil => simp [collectParts_cons, hnd, hlp, string_empty_append]
    | cons a rest ih => simp [collectParts_cons, ih]
  exact ⟨hcp, by simp [chunkFragment, hcp]⟩

/-- Witness for `sse_malformed_data_line_dropped`: the malformed line
`data: {"cho` between two well-formed content lines. -/
theorem sse_malformed_data_line_dropped_witness :
    isDataLine "data: \x7b\"cho" = true ∧ dataRest "data: \x7b\"cho" ≠ "[DONE]" ∧
    parseFixture (dataRest "data: \x7b\"cho") = none ∧
    collectParts parseFixture
        (["data: " ++ hiJson] ++ "data: \x7b\"cho" :: ["data: " ++ thereJson]) =
      collectParts parseFixture (["data: " ++ hiJson] ++ ["data: " ++ thereJson]) ∧
    chunkFragment parseFixture
        (["data: " ++ hiJson] ++ "data: \x7b\"cho" :: ["data: " ++ thereJson]) =
      chunkFragment parseFixture (["data: " ++ hiJson] ++ ["data: " ++ thereJson]) :=
  ⟨by decide, by decide, by decide,
    sse_malformed_data_line_dropped parseFixture ["data: " ++ hiJson]
      ["data: " ++ thereJson] "data: \x7b\"cho" (by decide) (by decide) (by decide)⟩

/-! ## Theorems: local generation loop -/

/-- Shorthand for the decoded text of the token sampled at iteration `i`. -/
def tokText (b : LocalBackend) (i : Nat) : String :=
  (b.tokenToStr (b.sample i)).getD ""

theorem genLoop_succ_eog (b : LocalBackend) (fuel i k : Nat)
    (h : b.isEog (b.sample i) = true) :
    genLoop b (fuel + 1) i k = ⟨[], [], 1, .eog⟩ := by
  simp [genLoop, h]

theorem genLoop_succ_stopTag (b : LocalBackend) (fuel i k : Nat)
    (h1 : b.isEog (b.sample i) = false) (h2 : isStopText (tokText b i) = true) :
    genLoop b (fuel + 1) i k = ⟨[], [], 1, .stopTag⟩ := by
  simp [genLoop, h1, tokText] at h2 ⊢
  simp [h2]

theorem genLoop_succ_empty_step (b : LocalBackend) (fuel i k : Nat)
    (h1 : b.isEog (b.sample i) = false) (h2 : isStopText (tokText b i) = false)
    (h3 : (tokText b i).isEmpty = true) (h4 : b.stepOk i = true) :
    genLoop b (fuel + 1) i k =
      ⟨(genLoop b fuel (i + 1) k).emitted,
        (b.sample i, tokText b i) :: (genLoop b fuel (i + 1) k).consumed,
        (genLoop b fuel (i + 1) k).steps + 1,
        (genLoop b fuel (i + 1) k).exit⟩ := by
  simp [tokText] at h2 h3
  simp [genLoop, h1, h2, h3, h4, tokText]

theorem genLoop_succ_empty_stepFail (b : LocalBackend) (fuel i k : Nat)
    (h1 : b.isEog (b.sample i) = false) (h2 : isStopText (tokText b i) = false)
    (h3 : (tokText b i).isEmpty = true) (h4 : b.stepOk i = false) :
    genLoop b (fuel + 1) i k =
      ⟨[], [(b.sample i, tokText b i)], 1, .stepError⟩ := by
  simp [tokText] at h2 h3
  simp [genLoop, h1, h2, h3, h4, tokText]

theorem genLoop_succ_send_step (b : LocalBackend) (fuel i k : Nat)
    (h1 : b.isEog (b.sample i) = false) (h2 : isStopText (tokText b i) = false)
    (h3 : (tokText b i).isEmpty = false) (h4 : b.sendOk k = true)
    (h5 : b.stepOk i = true) :
    genLoop b (fuel + 1) i k =
      ⟨(b.sample i, tokText b i) :: (genLoop b fuel (i + 1) (k + 1)).emitted,
        (b.sample i, tokText b i) :: (genLoop b fuel (i + 1) (k + 1)).consumed,
        (genLoop b fuel (i + 1) (k + 1)).steps + 1,
        (genLoop b fuel (i + 1) (k + 1)).exit⟩ := by
  simp [tokText] at h2 h3
  simp [genLoop, h1, h2, h3, h4, h5, tokText]

theorem genLoop_succ_send_stepFail (b : LocalBackend) (fuel i k : Nat)
    (h1 : b.isEog (b.sample i) = false) (h2 : isStopText (tokText b i) = false)
    (h3 : (tokText b i).isEmpty = false) (h4 : b.sendOk k = true)
    (h5 : b.stepOk i = false) :
    genLoop b (fuel + 1) i k =
      ⟨[(b.sample i, tokText b i)], [(b.sample i, tokText b i)], 1, .stepError⟩ := by
  simp [tokText] at h2 h3
  simp [genLoop, h1, h2, h3, h4, h5, tokText]

theorem genLoop_succ_cancel (b : LocalBackend) (fuel i k : Nat)
    (h1 : b.isEog (b.sample i) = false) (h2 : isStopText (tokText b i) = false)
    (h3 : (tokText b i).isEmpty = false) (h4 : b.sendOk k = false) :
    genLoop b (fuel + 1) i k = ⟨[], [], 1, .cancelled⟩ := by
  simp [tokText] at h2 h3
  simp [genLoop, h1, h2, h3, h4, tokText]

theorem genLoop_emitted_spec (b : LocalBackend) (fuel i k : Nat) :
    (∀ p ∈ (genLoop b fuel i k).emitted,
        b.isEog p.1 = false ∧ isStopText p.2 = false ∧ p.2 ≠ "") ∧
    joinParts ((genLoop b fuel i k).emitted.map Prod.snd) =
      joinParts ((genLoop b fuel i k).consumed.map Prod.snd) := by
  induction fuel generalizing i k with
  | zero => simp [genLoop, joinParts]
  | succ fuel ih =>
    cases he : b.isEog (b.sample i) with
    | true => rw [genLoop_succ_eog b fuel i k he]; simp [joinParts]
    | false =>
    cases hst : isStopText (tokText b i) with
    | true => rw [genLoop_succ_stopTag b fuel i k he hst]; simp [joinParts]
    | false =>
    cases hemp : (tokText b i).isEmpty with
    | true =>
      have hs0 : tokText b i = "" := (String.isEmpty_iff _).mp hemp
      cases hstep : b.stepOk i with
      | true =>
        rw [genLoop_succ_empty_step b fuel i k he hst hemp hstep]
        obtain ⟨ha, hb⟩ := ih (i + 1) k
        refine ⟨ha, ?_⟩
        show joinParts _ = joinParts (List.map Prod.snd ((b.sample i, tokText b i) :: _))
        rw [List.map_cons, hs0]
        show _ = "" ++ _
        rw [string_empty_append]
        exact hb
      | false =>
        rw [genLoop_succ_empty_stepFail b fuel i k he hst hemp hstep]
        refine ⟨by simp, ?_⟩
        show joinParts [] = joinParts [tokText b i]
        rw [hs0]
        rfl
    | false =>
      have hne : tokText b i ≠ "" := by
        intro h0
        rw [h0] at hemp
        exact absurd hemp (by decide)
      cases hsend : b.sendOk k with
      | true =>
        cases hstep : b.stepOk i with
        | true =>
          rw [genLoop_succ_send_step b fuel i k he hst hemp hsend hstep]
          obtain ⟨ha, hb⟩ := ih (i + 1) (k + 1)
          constructor
          · intro p hp
            rcases List.mem_cons.mp hp with h | h
            · rw [h]
              exact ⟨he, hst, hne⟩
            · exact ha p h
          · show joinParts (List.map Prod.snd ((b.sample i, tokText b i) :: _)) =
              joinParts (List.map Prod.snd ((b.sample i, tokText b i) :: _))
            rw [List.map_cons, List.map_cons]
            show tokText b i ++ _ = tokText b i ++ _
            rw [hb]
        | false =>
          rw [genLoop_succ_send_stepFail b fuel i k he hst hemp hsend hstep]
          constructor
          · intro p hp
            rcases List.mem_cons.mp hp with h | h
            · rw [h]
              exact ⟨he, hst, hne⟩
            · simp at h
          · rfl
      | false =>
        rw [genLoop_succ_cancel b fuel i k he hst hemp hsend]
        simp [joinParts]

/-- C3: in any run of the generation loop, (a) every emitted fragment comes
from a token that is not a backend-recognized end-of-generation token and
contains neither `<end_of_turn>` nor `<eos>` (and is non-empty), and (b)
concatenating all emitted fragments in order equals the concatenation of
the decoded texts of all accepted tokens — the model's generated text with
the stop token/tag (which is swallowed before emission) excluded. -/
theorem local_fragments_reconstruct_generation (b : LocalBackend) :
    (∀ p ∈ (run_inference b).emitted,
        b.isEog p.1 = false ∧ isStopText p.2 = false ∧ p.2 ≠ "") ∧
    joinParts ((run_inference b).emitted.map Prod.snd) =
      joinParts ((run_inference b).consumed.map Prod.snd) :=
  genLoop_emitted_spec b max_tokens 0 0

theorem genLoop_bounds (b : LocalBackend) (fuel i k : Nat) :
    (genLoop b fuel i k).steps ≤ fuel ∧
    (genLoop b fuel i k).emitted.length ≤ (genLoop b fuel i k).steps ∧
    (genLoop b fuel i k).consumed.length ≤ (genLoop b fuel i k).steps := by
  induction fuel generalizing i k with
  | zero => simp [genLoop]
  | succ fuel ih =>
    cases he : b.isEog (b.sample i) with
    | true => rw [genLoop_succ_eog b fuel i k he]; simp
    | false =>
    cases hst : isStopText (tokText b i) with
    | true => rw [genLoop_succ_stopTag b fuel i k he hst]; simp
    | false =>
    cases hemp : (tokText b i).isEmpty with
    | true =>
      cases hstep : b.stepOk i with
      | true =>
        rw [genLoop_succ_empty_step b fuel i k he hst hemp hstep]
        have hrec := ih (i + 1) k
        simp only [List.length_cons]
        omega
      | false =>
        rw [genLoop_succ_empty_stepFail b fuel i k he hst hemp hstep]
        simp
    | false =>
      cases hsend : b.sendOk k with
      | true =>
        cases hstep : b.stepOk i with
        | true =>
          rw [genLoop_succ_send_step b fuel i k he hst hemp hsend hstep]
          have hrec := ih (i + 1) (k + 1)
          simp only [List.length_cons]
          omega
        | false =>
          rw [genLoop_succ_send_stepFail b fuel i k he hst hemp hsend hstep]
          simp
      | false =>
        rw [genLoop_succ_cancel b fuel i k he hst hemp hsend]
        simp

/-- C8: the autoregressive loop runs `for _ in 0..max_tokens` with
`max_tokens = 512`, so it enters at most 512 iterations (one token sampled
per iteration), emits at most 512 fragments, accepts at most 512 tokens,
and — being fuel-bounded structural recursion — always terminates. -/
theorem run_inference_bounded (b : LocalBackend) :
    (run_inference b).steps ≤ max_tokens ∧
    (run_inference b).emitted.length ≤ max_tokens ∧
    (run_inference b).consumed.length ≤ max_tokens ∧ max_tokens = 512 := by
  have h := genLoop_bounds b max_tokens 0 0
  exact ⟨h.1, le_trans h.2.1 h.1, le_trans h.2.2 h.1, rfl⟩

/-- C7: the sampler is chosen once per call, before the loop
(`mkBackend` fixes it from the temperature and `genLoop` never re-selects):
below the 0.01 epsilon the greedy sampler is selected and the whole call's
outcome is independent of the randomness stream — deterministic for a
fixed prompt and model state — and at or above the epsilon the
temperature-scaled stochastic sampler (seed 0) is selected. -/
theorem sampler_selected_once_greedy_below_epsilon (temperature : ℚ) :
    (temperature < samplerEpsilon →
      selectSampler temperature = .greedy ∧
      ∀ det rnd rnd' isEog tokenToStr sendOk stepOk,
        runCall temperature det rnd isEog tokenToStr sendOk stepOk =
          runCall temperature det rnd' isEog tokenToStr sendOk stepOk) ∧
    (¬temperature < samplerEpsilon →
      selectSampler temperature = .tempDist temperature 0) := by
  constructor
  · intro h
    have hs : selectSampler temperature = .greedy := by
      simp [selectSampler, h]
    refine ⟨hs, fun det rnd rnd' isEog tokenToStr sendOk stepOk => ?_⟩
    have hb : mkBackend temperature det rnd isEog tokenToStr sendOk stepOk =
        mkBackend temperature det rnd' isEog tokenToStr sendOk stepOk := by
      unfold mkBackend
      rw [hs]
      have hsm : sampleWith SamplerKind.greedy det rnd =
          sampleWith SamplerKind.greedy det rnd' := funext fun _ => rfl
      rw [hsm]
    exact congrArg run_inference hb
  · intro h
    simp [selectSampler, h]

/-- Witness for `sampler_selected_once_greedy_below_epsilon` at
temperature 0 and two different randomness streams. -/
theorem sampler_greedy_witness :
    (0 : ℚ) < samplerEpsilon ∧
    selectSampler 0 = .greedy ∧
    runCall 0 (fun _ => 1) (fun n => Int.ofNat n) (fun _ => false)
        (fun _ => some "x") (fun _ => true) (fun _ => true) =
      runCall 0 (fun _ => 1) (fun _ => 42) (fun _ => false)
        (fun _ => some "x") (fun _ => true) (fun _ => true) := by
  have heps : (0 : ℚ) < samplerEpsilon := by norm_num [samplerEpsilon]
  have h := (sampler_selected_once_greedy_below_epsilon 0).1 heps
  exact ⟨heps, h.1, h.2 (fun _ => 1) (fun n => Int.ofNat n) (fun _ => 42)
    (fun _ => false) (fun _ => some "x") (fun _ => true) (fun _ => true)⟩

/-- C10: when `token_to_str` fails for a sampled (non-end) token, the
source substitutes `""` (`unwrap_or_default`); the empty text passes the
stop-tag test, is never emitted, skips the `blocking_send` (and hence its
cancellation check — the send counter `k` does not advance), and the loop
simply continues at the next iteration: conversion failure is never a
terminal error. -/
theorem token_to_str_failure_skips_token (b : LocalBackend) (fuel i k : Nat)
    (h1 : b.isEog (b.sample i) = false) (h2 : b.tokenToStr (b.sample i) = none)
    (h3 : b.stepOk i = true) :
    genLoop b (fuel + 1) i k =
      ⟨(genLoop b fuel (i + 1) k).emitted,
        (b.sample i, "") :: (genLoop b fuel (i + 1) k).consumed,
        (genLoop b fuel (i + 1) k).steps + 1,
        (genLoop b fuel (i + 1) k).exit⟩ := by
  have hstop : isStopText "" = false := by decide
  have hemp : "".isEmpty = true := by decide
  simp [genLoop, h1, h2, h3, hstop, hemp]

/-- Witness for `token_to_str_failure_skips_token` on a backend whose
token-to-text conversion always fails. -/
theorem token_to_str_failure_skips_token_witness :
    backendNoText.isEog (backendNoText.sample 0) = false ∧
    backendNoText.tokenToStr (backendNoText.sample 0) = none ∧
    backendNoText.stepOk 0 = true ∧
    genLoop backendNoText 3 0 0 =
      ⟨(genLoop backendNoText 2 1 0).emitted,
        (backendNoText.sample 0, "") :: (genLoop backendNoText 2 1 0).consumed,
        (genLoop backendNoText 2 1 0).steps + 1,
        (genLoop backendNoText 2 1 0).exit⟩ :=
  ⟨rfl, rfl, rfl, token_to_str_failure_skips_token backendNoText 2 0 0 rfl rfl rfl⟩

/-! ## Theorems: prompt formatting -/

/-- C9: `format_chat_prompt` renders nothing for a message whose role is
not exactly `system`, `user` or `assistant` (the `_ => {}` match arm), so
inserting such a message anywhere leaves the prompt unchanged, and the
prompt still ends with the open assistant-turn marker. -/
theorem format_chat_prompt_skips_unknown_roles (pre post : List Message)
    (m : Message) (h1 : m.role ≠ "system") (h2 : m.role ≠ "user")
    (h3 : m.role ≠ "assistant") :
    format_chat_prompt (pre ++ m :: post) = format_chat_prompt (pre ++ post) ∧
    ∃ p, format_chat_prompt (pre ++ m :: post) = p ++ "<start_of_turn>model\n" := by
  have hr : renderMessage m = "" := by
    simp [renderMessage, h1, h2, h3]
  constructor
  · simp [format_chat_prompt, joinParts_append, joinParts, hr,
      string_empty_append]
  · exact ⟨joinParts ((pre ++ m :: post).map renderMessage), rfl⟩

/-- Witness for `format_chat_prompt_skips_unknown_roles` with a `tool`
message dropped before a `user` message. -/
theorem format_chat_prompt_skips_unknown_roles_witness :
    (Message.mk "tool" "x").role ≠ "system" ∧
    (Message.mk "tool" "x").role ≠ "user" ∧
    (Message.mk "tool" "x").role ≠ "assistant" ∧
    format_chat_prompt ([] ++ Message.mk "tool" "x" :: [Message.mk "user" "hi"]) =
      format_chat_prompt ([] ++ [Message.mk "user" "hi"]) ∧
    ∃ p, format_chat_prompt ([] ++ Message.mk "tool" "x" :: [Message.mk "user" "hi"]) =
      p ++ "<start_of_turn>model\n" :=
  ⟨by decide, by decide, by decide,
    (format_chat_prompt_skips_unknown_roles [] [Message.mk "user" "hi"]
      (Message.mk "tool" "x") (by decide) (by decide) (by decide)).1,
    (format_chat_prompt_skips_unknown_roles [] [Message.mk "user" "hi"]
      (Message.mk "tool" "x") (by decide) (by decide) (by decide)).2⟩

/-! ## Theorems: orchestrator (`send_message`) -/

theorem consumeStream_spec (items : List (Except String String))
    (history1 : List ChatMessage) (acc : String) (evs : List UIEvent) :
    consumeStream history1 acc evs items =
      ⟨if streamOk items
        then history1 ++ [⟨"assistant", acc ++ joinParts (okTokens items)⟩]
        else history1,
       evs ++ streamEvents items,
       if streamOk items then .ok ()
        else .error ("Stream error: " ++ firstErr items)⟩ := by
  induction items generalizing acc evs with
  | nil =>
    simp [consumeStream, streamOk, streamEvents, okTokens, firstErr,
      joinParts, string_append_empty]
  | cons x rest ih =>
    cases x with
    | ok tok =>
      show consumeStream history1 (acc ++ tok) (evs ++ [.token tok]) rest = _
      rw [ih]
      cases hok : streamOk rest <;>
        simp [streamOk, streamEvents, okTokens, firstErr, joinParts, hok,
          string_append_assoc, List.append_assoc]
    | error e =>
      simp [consumeStream, streamOk, streamEvents, okTokens, firstErr]

theorem streamEvents_eq (items : List (Except String String)) :
    streamEvents items = (okTokens items).map UIEvent.token ++
      [if streamOk items then UIEvent.done
       else UIEvent.error ("Stream error: " ++ firstErr items)] := by
  induction items with
  | nil => simp [streamEvents, okTokens, streamOk, firstErr]
  | cons x rest ih =>
    cases x with
    | ok t => simp [streamEvents, okTokens, streamOk, firstErr, ih]
    | error e => simp [streamEvents, okTokens, streamOk, firstErr]

theorem streamEvents_one_terminal (items : List (Except String String)) :
    (List.filter isTerminalEv (streamEvents items)).length = 1 := by
  rw [streamEvents_eq, List.filter_append]
  have h1 : List.filter isTerminalEv ((okTokens items).map UIEvent.token) = [] := by
    induction okTokens items with
    | nil => rfl
    | cons t ts ih => simp [isTerminalEv, ih]
  rw [h1]
  cases streamOk items <;> simp [isTerminalEv]

/-! ## Claim C5 -/

/-- C5: with a `BuiltIn` provider whose configured model path does not
exist, `send_message` fails with the model-load error produced by the
`Path::exists` check in `LocalLLMProvider::new`: the history is returned
unchanged (the user message is pushed only after `build_provider`
succeeds), no UI event — in particular no fragment — is emitted, and the
outcome is independent of the provider's streaming behaviour `streamOf`
(so no backend initialization or generation is ever consulted). -/
theorem send_message_missing_model_fails_early (fsExists : String → Bool)
    (streamOf : StreamFn) (systemPrompt : String) (config : Config)
    (history : List ChatMessage) (message : String) (p : String)
    (hp : config.llm_provider = .BuiltIn)
    (hpath : config.builtin_model_path = some p)
    (hfs : fsExists p = false) :
    send_message fsExists streamOf systemPrompt (.ok config) history message =
      ⟨history, [],
        .error ("Failed to load local model: " ++ ("Model file not found: " ++ p))⟩ := by
  simp [send_message, build_provider, hp, hpath, LocalLLMProvider_new, hfs]

/-- Witness for `send_message_missing_model_fails_early` on a concrete
configuration pointing at `/missing/model.gguf`. -/
theorem send_message_missing_model_witness :
    cfgMissingModel.llm_provider = .BuiltIn ∧
    cfgMissingModel.builtin_model_path = some "/missing/model.gguf" ∧
    fsNone "/missing/model.gguf" = false ∧
    send_message fsNone streamNone "sys" (.ok cfgMissingModel) [] "hello" =
      ⟨[], [], .error ("Failed to load local model: " ++
        ("Model file not found: " ++ "/missing/model.gguf"))⟩ :=
  ⟨rfl, rfl, rfl,
    send_message_missing_model_fails_early fsNone streamNone "sys"
      cfgMissingModel [] "hello" "/missing/model.gguf" rfl rfl rfl⟩

/-! ## Claim C6 -/

/-- C6 counterexample: a call that fails in `build_provider` (here: missing
local model file) emits no UI event at all — in particular no terminal
completion or error event — contradicting "the UI boundary receives …
exactly one terminal event" for every call; the error travels only through
the command's return value. -/
theorem send_message_no_terminal_event_counterexample :
    (send_message fsNone streamNone "sys" (.ok cfgMissingModel) [] "hello").events = [] ∧
    ∃ e, (send_message fsNone streamNone "sys" (.ok cfgMissingModel) [] "hello").result =
      .error e :=
  ⟨rfl, "Failed to load local model: Model file not found: /missing/model.gguf", rfl⟩

/-- C6 amended: for every call that reaches streaming (config loads, the
provider builds, and `stream_completion` returns a stream), the UI
boundary receives the forwarded token events followed by exactly one
terminal event — `chat-done` if no item was an error, a single
`chat-error` otherwise, never both — and an assistant message holding the
concatenation of all forwarded tokens is appended to history exactly when
the terminal event is the completion; on a terminal error the history
keeps only the user message.  Calls failing before streaming emit no
events (see the counterexample). -/
theorem send_message_stream_terminal_events (fsExists : String → Bool)
    (streamOf : StreamFn) (systemPrompt : String) (config : Config)
    (history : List ChatMessage) (message : String) (prov : Provider)
    (items : List (Except String String))
    (hb : build_provider fsExists config = .ok prov)
    (hs : streamOf prov
        (mkRequestMessages systemPrompt (history ++ [⟨"user", message⟩]))
        config.temperature = .ok items) :
    (send_message fsExists streamOf systemPrompt (.ok config) history message).events =
      (okTokens items).map UIEvent.token ++
        [if streamOk items then UIEvent.done
         else UIEvent.error ("Stream error: " ++ firstErr items)] ∧
    (List.filter isTerminalEv
      (send_message fsExists streamOf systemPrompt (.ok config) history message).events).length = 1 ∧
    (send_message fsExists streamOf systemPrompt (.ok config) history message).history =
      (if streamOk items
        then history ++ [⟨"user", message⟩, ⟨"assistant", joinParts (okTokens items)⟩]
        else history ++ [⟨"user", message⟩]) ∧
    ((send_message fsExists streamOf systemPrompt (.ok config) history message).result =
        .ok () ↔ streamOk items = true) := by
  have hsm : send_message fsExists streamOf systemPrompt (.ok config) history message =
      consumeStream (history ++ [⟨"user", message⟩]) "" [] items := by
    simp [send_message, hb, hs]
  rw [hsm, consumeStream_spec]
  refine ⟨by simp [streamEvents_eq], ?_, ?_, ?_⟩
  · simp only [List.nil_append]
    exact streamEvents_one_terminal items
  · cases hok : streamOk items <;>
      simp [hok, string_empty_append, List.append_assoc]
  · cases hok : streamOk items <;> simp [hok]

/-- Witness for `send_message_stream_terminal_events`: an OpenAI call
streaming `Hi` and ` there` then completing. -/
theorem send_message_stream_terminal_events_witness :
    build_provider fsNone cfgOpenAI =
      .ok (.openai "k" "gpt-4" "https://api.openai.com/v1") ∧
    streamHiThere (.openai "k" "gpt-4" "https://api.openai.com/v1")
        (mkRequestMessages "sys" ([] ++ [⟨"user", "hello"⟩]))
        cfgOpenAI.temperature = .ok [.ok "Hi", .ok " there"] ∧
    ((send_message fsNone streamHiThere "sys" (.ok cfgOpenAI) [] "hello").events =
      (okTokens [.ok "Hi", .ok " there"]).map UIEvent.token ++
        [if streamOk [.ok "Hi", .ok " there"] then UIEvent.done
         else UIEvent.error ("Stream error: " ++ firstErr [.ok "Hi", .ok " there"])] ∧
    (List.filter isTerminalEv
      (send_message fsNone streamHiThere "sys" (.ok cfgOpenAI) [] "hello").events).length = 1 ∧
    (send_message fsNone streamHiThere "sys" (.ok cfgOpenAI) [] "hello").history =
      (if streamOk [.ok "Hi", .ok " there"]
        then [] ++ [⟨"user", "hello"⟩,
          ⟨"assistant", joinParts (okTokens [.ok "Hi", .ok " there"])⟩]
        else [] ++ [⟨"user", "hello"⟩]) ∧
    ((send_message fsNone streamHiThere "sys" (.ok cfgOpenAI) [] "hello").result =
        .ok () ↔ streamOk [.ok "Hi", .ok " there"] = true)) :=
  ⟨rfl, rfl,
    send_message_stream_terminal_events fsNone streamHiThere "sys" cfgOpenAI
      [] "hello" (.openai "k" "gpt-4" "https://api.openai.com/v1")
      [.ok "Hi", .ok " there"] rfl rfl⟩

end RustyClippy
